import Mathlib

/-
Verification of the withu-mirai voice-widget core against its specification.

The embedding below is a shallow model of the client-side voice-conversation
orchestrator found in `widget-src/index.ts` (first, most complete variant),
the voice-activity detector in `vad.ts`, the recorder adapter in
`recorder.ts`, and the constants in `constants.ts` (`VAD_CONFIG`).

Modelling conventions:
  * JavaScript numbers used as millisecond timestamps and byte counts are
    modelled as `Nat` (`performance.now()` is monotone; `Math.max(0, a - b)`
    coincides with truncated `Nat` subtraction).
  * RMS loudness values are modelled as `ℚ` (only order comparisons with
    fixed rational thresholds matter).
  * Audio blobs are modelled by their byte size (`Nat`); synthesized audio
    payloads by an abstract `Nat` identifier.
  * The single-threaded event loop is modelled run-to-completion: each
    handler is a pure state-transition function, and the `await` suspension
    points inside a handler are surfaced as explicit oracle parameters
    (network results) and lists of external events applied at those points.
-/

namespace WithU

/-! ## VAD configuration (`constants.ts`, VAD_CONFIG) -/

/-- Mirror of `VAD_CONFIG` in `constants.ts`: fixed thresholds of the VAD. -/
structure VadConfig where
  minSpeechMs : Nat
  silenceMs : Nat
  maxSpeechMs : Nat
  rmsThreshold : ℚ
deriving Repr, DecidableEq

/-- Mirror of the concrete values in `constants.ts`: `minSpeechMs: 300`,
`silenceMs: 700`, `maxSpeechMs: 15000`, `rmsThreshold: 0.02`. -/
def VAD_CONFIG : VadConfig :=
  { minSpeechMs := 300, silenceMs := 700, maxSpeechMs := 15000, rmsThreshold := mkRat 2 100 }

/-! ## Recorder adapter (`recorder.ts`) -/

/-- Recorder state from `recorder.ts`: the `recording` flag and the
accumulated chunk buffer, modelled by its total byte size. -/
structure RecState where
  recording : Bool
  chunks : Nat
deriving Repr, DecidableEq

/-- Mirror of `recorder.start()`: a no-op while recording, otherwise clears
the chunk buffer and begins capture. -/
def RecState.startRec (r : RecState) : RecState :=
  if r.recording then r else { recording := true, chunks := 0 }

/-- Mirror of `recorder.stop()`: when not recording it returns an empty
payload and leaves the state alone; otherwise it clears the `recording`
flag and finalizes the buffered chunks into the returned payload size. -/
def RecState.stopRec (r : RecState) : RecState × Nat :=
  ({ r with recording := false }, if r.recording then r.chunks else 0)

/-! ## Voice activity detector (`vad.ts`) -/

/-- Internal VAD state from `vad.ts` (`Internal`), together with the recorder
it drives. `speechStartAt` and `lastVoiceAt` are millisecond timestamps. -/
structure VadState where
  running : Bool
  inSpeech : Bool
  speechStartAt : Nat
  lastVoiceAt : Nat
  recS : RecState
deriving Repr, DecidableEq

/-- Discrete events emitted by the VAD towards the orchestrator. -/
inductive VadEvent where
  | speechStart
  | speechEnd (durationMs : Nat) (sizeBytes : Nat)
deriving Repr, DecidableEq

/-- One input to a VAD sampler tick: the current time `t` (ms), the measured
RMS loudness, and the audio bytes captured by the recorder since the
previous tick (the `ondataavailable` chunks). -/
structure Sample where
  t : Nat
  rms : ℚ
  chunkBytes : Nat
deriving Repr

/-- Mirror of `endSpeech` in `vad.ts`: compute `durationMs` from the speech
start to now, stop the recorder and finalize its payload, leave the
in-speech sub-state, and only then apply the minimum-duration check: a
segment with `durationMs < minSpeechMs` emits no event. -/
def endSpeech (cfg : VadConfig) (t : Nat) (s : VadState) : VadState × List VadEvent :=
  let durationMs := t - s.speechStartAt
  let stopped := s.recS.stopRec
  let s1 : VadState := { s with recS := stopped.1, inSpeech := false }
  (s1, if durationMs < cfg.minSpeechMs then []
       else [VadEvent.speechEnd durationMs stopped.2])

/-- Mirror of `tick` in `vad.ts`: one animation-frame step of the sampler.
While recording, the recorder first absorbs the chunk captured since the
last tick. From the idle sub-state, a sample at or above `rmsThreshold`
enters speech, starts the recorder and emits `speechStart`; from the
in-speech sub-state, a voiced sample refreshes `lastVoiceAt`, and the
segment is finalized when the elapsed speech time reaches `maxSpeechMs`
or, failing that, when continuous silence reaches `silenceMs`. -/
def vadTick (cfg : VadConfig) (smp : Sample) (s : VadState) : VadState × List VadEvent :=
  if ¬ s.running then (s, [])
  else
    let rec0 : RecState :=
      { recording := s.recS.recording,
        chunks := s.recS.chunks + (if s.recS.recording then smp.chunkBytes else 0) }
    let isVoice := cfg.rmsThreshold ≤ smp.rms
    if ¬ s.inSpeech then
      if isVoice then
        ({ s with inSpeech := true, speechStartAt := smp.t, lastVoiceAt := smp.t,
                  recS := rec0.startRec }, [VadEvent.speechStart])
      else ({ s with recS := rec0 }, [])
    else
      let s1 : VadState :=
        { s with lastVoiceAt := if isVoice then smp.t else s.lastVoiceAt, recS := rec0 }
      let speechMs := smp.t - s1.speechStartAt
      let silence := smp.t - s1.lastVoiceAt
      if cfg.maxSpeechMs ≤ speechMs then endSpeech cfg smp.t s1
      else if cfg.silenceMs ≤ silence then endSpeech cfg smp.t s1
      else (s1, [])

/-- Run the VAD sampler over a list of samples, collecting emitted events. -/
def runVad (cfg : VadConfig) (s : VadState) : List Sample → VadState × List VadEvent
  | [] => (s, [])
  | smp :: rest =>
    let step := vadTick cfg smp s
    let run := runVad cfg step.1 rest
    (run.1, step.2 ++ run.2)

/-- VAD state right after `start()` succeeds: running, idle sub-state,
recorder constructed but not capturing. -/
def vadInit : VadState :=
  { running := true, inSpeech := false, speechStartAt := 0, lastVoiceAt := 0,
    recS := { recording := false, chunks := 0 } }

/-- Sample list of the spec scenario: loudness `[0.0, 0.0, 0.03, 0.03, 0.03,
0.00, 0.00, 0.00]` at 100 ms ticks, extended with further silent ticks so
that the 700 ms silence timeout elapses (ticks continue every 100 ms until
t = 1200). Each tick delivers a 200-byte recorder chunk. -/
def scenarioSamples : List Sample :=
  [⟨100, 0, 200⟩, ⟨200, 0, 200⟩, ⟨300, mkRat 3 100, 200⟩, ⟨400, mkRat 3 100, 200⟩,
   ⟨500, mkRat 3 100, 200⟩, ⟨600, 0, 200⟩, ⟨700, 0, 200⟩, ⟨800, 0, 200⟩,
   ⟨900, 0, 200⟩, ⟨1000, 0, 200⟩, ⟨1100, 0, 200⟩, ⟨1200, 0, 200⟩]

/-! ## Response cache (`speakWithServerTts`, index.ts)

The cache block of `speakWithServerTts`: a key-to-payload `Map` (`ttsCache`),
an insertion-order list (`ttsCacheOrder`) bounded to 20 entries by a
shift-and-delete loop, and an in-flight-request map (`ttsInflight`) whose
entry for a key is removed by a `finally` when the fetch settles. Payload
blobs are abstracted to `Nat` identifiers; callers to `Nat` identifiers. -/

/-- Keys of an association-list representation of a JS `Map`. -/
def mapKeys (m : List (String × Nat)) : List String := m.map (fun p => p.1)

/-- Mirror of `Map.get`: the value stored at `k`, if any. -/
def mapGet (m : List (String × Nat)) (k : String) : Option Nat :=
  (m.find? (fun p => p.1 == k)).map (fun p => p.2)

/-- Mirror of `Map.set`: update in place when the key is present (JS keeps
the original insertion position), append otherwise. -/
def mapSet (m : List (String × Nat)) (k : String) (v : Nat) : List (String × Nat) :=
  if m.any (fun p => p.1 == k) then m.map (fun p => if p.1 == k then (k, v) else p)
  else m ++ [(k, v)]

/-- Mirror of `Map.delete`. -/
def mapDelete (m : List (String × Nat)) (k : String) : List (String × Nat) :=
  m.filter (fun p => p.1 != k)

/-- Mirror of the `while (ttsCacheOrder.length > 20)` loop: shift the oldest
key off the order list and delete it from the cache map until the order
list is back within the 20-entry bound. -/
def evictLoop : List (String × Nat) → List String → List (String × Nat) × List String
  | m, [] => (m, [])
  | m, k :: rest =>
    if 20 < (k :: rest).length then evictLoop (mapDelete m k) rest
    else (m, k :: rest)

/-- State of the TTS response cache: the payload map, the FIFO order list,
the keys with a pending fetch, and the callers awaiting each pending
fetch. -/
structure CacheState where
  cache : List (String × Nat)
  order : List String
  inflight : List String
  waiting : List (Nat × String)
deriving Repr, DecidableEq

/-- The maps start empty (they are lazily initialised on first use). -/
def emptyCache : CacheState := ⟨[], [], [], []⟩

/-- Mirror of the per-caller insertion block that runs after a caller
obtains the blob: `ttsCache.set(key, blob); ttsCacheOrder.push(key);` then
the eviction loop. -/
def insertBlock (k : String) (v : Nat) (s : CacheState) : CacheState :=
  let cache := mapSet s.cache k v
  let order := s.order ++ [k]
  let e := evictLoop cache order
  { s with cache := e.1, order := e.2 }

/-- Atomic events of the cache trace semantics: a synthesis request reaching
the cache block, and the settling (fulfilment or ultimate rejection, the
one retry included) of the deduplicated underlying fetch for a key. -/
inductive TtsReqEv where
  | request (caller : Nat) (key : String)
  | fetchResolve (key : String) (payload : Nat)
  | fetchReject (key : String)
deriving Repr, DecidableEq

/-- Observable outputs of a cache step: creation of an underlying synthesis
fetch task, and delivery of a payload (or of the failure) to a caller. -/
inductive TtsOut where
  | synthesisCall (key : String)
  | delivered (caller : Nat) (payload : Nat)
  | failed (caller : Nat)
deriving Repr, DecidableEq

/-- One run-to-completion step of the cache logic in `speakWithServerTts`.
A request first consults the cache (hit: return the stored payload, no
fetch); on a miss it joins the pending fetch for its key when one exists,
and otherwise registers the key in the in-flight map and creates the one
underlying fetch task. When the fetch settles, its `finally` removes the
in-flight entry; on fulfilment every awaiting caller resumes, runs the
insertion block, and receives the payload; on rejection every awaiting
caller takes the error path, storing nothing. -/
def ttsStep (s : CacheState) : TtsReqEv → CacheState × List TtsOut
  | TtsReqEv.request c k =>
    match mapGet s.cache k with
    | some v => (s, [TtsOut.delivered c v])
    | none =>
      if k ∈ s.inflight then
        ({ s with waiting := s.waiting ++ [(c, k)] }, [])
      else
        ({ s with inflight := s.inflight ++ [k], waiting := s.waiting ++ [(c, k)] },
         [TtsOut.synthesisCall k])
  | TtsReqEv.fetchResolve k v =>
    let s1 := { s with inflight := s.inflight.filter (fun k2 => k2 != k) }
    let cohort := s1.waiting.filter (fun w => w.2 == k)
    let s2 := { s1 with waiting := s1.waiting.filter (fun w => w.2 != k) }
    let s3 := cohort.foldl (fun acc _ => insertBlock k v acc) s2
    (s3, cohort.map (fun w => TtsOut.delivered w.1 v))
  | TtsReqEv.fetchReject k =>
    let s1 := { s with inflight := s.inflight.filter (fun k2 => k2 != k),
                       waiting := s.waiting.filter (fun w => w.2 != k) }
    (s1, (s.waiting.filter (fun w => w.2 == k)).map (fun w => TtsOut.failed w.1))

/-- Run the cache over a list of events, collecting the outputs. -/
def runTts (s : CacheState) : List TtsReqEv → CacheState × List TtsOut
  | [] => (s, [])
  | e :: rest =>
    let step := ttsStep s e
    let run := runTts step.1 rest
    (run.1, step.2 ++ run.2)

/-- Mirror of the fetch task body in `speakWithServerTts`: try the synthesis
call; on failure, when `shouldRetryTts` classifies the error as transient,
wait briefly and try exactly once more; otherwise (or when the retry also
fails) the task rejects. The settled event the trace sees is a function of
the two attempt outcomes and the retryability of the first error. -/
def fetchEvent (k : String) (firstTry : Option Nat) (retryable : Bool)
    (secondTry : Option Nat) : TtsReqEv :=
  match firstTry with
  | some v => TtsReqEv.fetchResolve k v
  | none =>
    match (if retryable then secondTry else none) with
    | some v => TtsReqEv.fetchResolve k v
    | none => TtsReqEv.fetchReject k

/-- Count of underlying synthesis fetch tasks created for `k`. -/
def countCalls (k : String) (outs : List TtsOut) : Nat :=
  outs.countP (fun o => o == TtsOut.synthesisCall k)

/-- Count of settle events (fulfilment or rejection) for `k`. -/
def countSettles (k : String) (evs : List TtsReqEv) : Nat :=
  evs.countP (fun e =>
    match e with
    | TtsReqEv.fetchResolve k2 _ => k2 == k
    | TtsReqEv.fetchReject k2 => k2 == k
    | _ => false)

/-- The cache invariant: bounded order list, every cached key recorded in
the order list, cached keys distinct. -/
def cacheInv (s : CacheState) : Prop :=
  s.order.length ≤ 20 ∧ (∀ k2, k2 ∈ mapKeys s.cache → k2 ∈ s.order) ∧
    (mapKeys s.cache).Nodup

/-- A concrete full cache map with 20 distinct single-letter keys. -/
def cache20 : List (String × Nat) :=
  [("a", 1), ("b", 2), ("c", 3), ("d", 4), ("e", 5), ("f", 6), ("g", 7),
   ("h", 8), ("i", 9), ("j", 10), ("k", 11), ("l", 12), ("m", 13), ("n", 14),
   ("o", 15), ("p", 16), ("q", 17), ("r", 18), ("s", 19), ("t", 20)]

/-- The insertion order of `cache20`. -/
def order20 : List String :=
  ["a", "b", "c", "d", "e", "f", "g", "h", "i", "j", "k", "l", "m", "n", "o",
   "p", "q", "r", "s", "t"]

/-- A full 20-entry cache with no pending fetch. -/
def cacheFull : CacheState := ⟨cache20, order20, [], []⟩

/-- A full 20-entry cache with a fetch for the 21st key `u` pending and one
caller awaiting it. -/
def cacheFullWaiting : CacheState := ⟨cache20, order20, ["u"], [(9, "u")]⟩

/-- An empty cache with a fetch for `hi` pending and one caller awaiting. -/
def cacheBusy : CacheState := ⟨[], [], ["hi"], [(1, "hi")]⟩

/-! ## Barge-in monitor: hold-timer logic (`startBargeInMonitor`, index.ts) -/

/-- Orchestrator mode: voice or text. -/
inductive Mode where
  | voice
  | text
deriving Repr, DecidableEq

/-- ConversationState, `WidgetState` in `stateMachine.ts`. -/
inductive WState where
  | idle
  | listening
  | thinking
  | speaking
deriving Repr, DecidableEq

/-- Mirror of `const threshold = 0.09` in `startBargeInMonitor`. -/
def bargeThreshold : ℚ := mkRat 9 100

/-- Mirror of `const minHoldMs = 260` in `startBargeInMonitor`. -/
def minHoldMs : Nat := 260

/-- Guard context sampled by the barge-in tick: the flags whose change makes
the monitor stop itself. -/
structure BargeEnv where
  mode : Mode
  micMuted : Bool
  speakerMuted : Bool
  currentAudio : Bool
  audioMuted : Bool
  volumeZero : Bool
deriving Repr, DecidableEq

/-- Mirror of the guard re-check at the top of the monitor tick:
`!currentAudio || mode !== "voice" || micMuted || speakerMuted ||
currentAudio.muted || currentAudio.volume === 0`. -/
def bargeGuardFails (env : BargeEnv) : Bool :=
  !env.currentAudio || env.mode != Mode.voice || env.micMuted || env.speakerMuted ||
    env.audioMuted || env.volumeZero

/-- Outcome of one monitor tick. -/
inductive BargeOut where
  | stopped
  | triggered
  | continued
deriving Repr, DecidableEq

/-- Mirror of the `tick` closure in `startBargeInMonitor`: when the guard
fails the monitor stops itself; a sample at or above the barge-in threshold
starts (or keeps) the `aboveSince` hold timer, and once the hold has lasted
`minHoldMs` the tick triggers the interruption; a sample below the
threshold resets the hold timer to null. -/
def bargeTick (env : BargeEnv) (t : Nat) (rms : ℚ) (aboveSince : Option Nat) :
    Option Nat × BargeOut :=
  if bargeGuardFails env then (aboveSince, BargeOut.stopped)
  else if bargeThreshold ≤ rms then
    let a := aboveSince.getD t
    if minHoldMs ≤ t - a then (some a, BargeOut.triggered)
    else (some a, BargeOut.continued)
  else (none, BargeOut.continued)

/-- Run the monitor over a list of timed loudness samples; the result is the
time of the tick that triggered barge-in, if any (the loop ends at a
trigger or at a guard failure). -/
def bargeRun (env : BargeEnv) (aboveSince : Option Nat) :
    List (Nat × ℚ) → Option Nat
  | [] => none
  | p :: rest =>
    let step := bargeTick env p.1 p.2 aboveSince
    match step.2 with
    | BargeOut.triggered => some p.1
    | BargeOut.stopped => none
    | BargeOut.continued => bargeRun env step.1 rest

/-! ## Barge-in monitor: analysis-graph resources (index.ts)

Resource-level model of `startBargeInMonitor` / `stopBargeInMonitor`:
`openCtxs` tracks every `AudioContext` the monitor has created and not yet
closed, `current` is the module variable `bargeCtx`. -/

/-- Analysis-graph resource state of the barge-in monitor. -/
structure BargeRes where
  openCtxs : List Nat
  current : Option Nat
  nextId : Nat
deriving Repr, DecidableEq

/-- Mirror of `stopBargeInMonitor`: cancel the scheduled tick, disconnect
the source, close the current audio context if one exists, and null all
the module variables; safe to call when no monitor is active. -/
def stopBargeInMonitorO (r : BargeRes) : BargeRes :=
  match r.current with
  | some i => { r with openCtxs := r.openCtxs.erase i, current := none }
  | none => r

/-- Mirror of `startBargeInMonitor`: always tear down any existing monitor
first; when a guard fails, stay stopped; otherwise build the analysis
graph (a fresh `AudioContext`), and if that construction throws, the
`catch` branch tears the partial graph down again. -/
def startBargeInMonitorO (guardsOk : Bool) (allocOk : Bool) (r : BargeRes) : BargeRes :=
  let r := stopBargeInMonitorO r
  if ¬ guardsOk then r
  else
    let opened : BargeRes :=
      { openCtxs := r.openCtxs ++ [r.nextId], current := some r.nextId,
        nextId := r.nextId + 1 }
    if allocOk then opened
    else stopBargeInMonitorO opened

/-- How a playback of synthesized audio ends. -/
inductive PlayExit where
  | natural
  | errored
  | interrupted
deriving Repr, DecidableEq

/-- Resource lifecycle of one playback in `speakWithServerTts`: the monitor
is started when playback begins; a triggered interruption stops the
monitor from inside the tick; and the `finally` clause stops it again on
every exit path (natural end, error, or interruption). -/
def playbackRun (guardsOk allocOk : Bool) (hexit : PlayExit) (r : BargeRes) : BargeRes :=
  let r1 := startBargeInMonitorO guardsOk allocOk r
  let r2 :=
    match hexit with
    | PlayExit.interrupted => stopBargeInMonitorO r1
    | _ => r1
  stopBargeInMonitorO r2

/-- Well-formedness of the monitor resources: the open analysis graphs are
exactly the one referenced by `bargeCtx` (so never more than one). -/
def BargeRes.wf (r : BargeRes) : Prop :=
  r.openCtxs = (match r.current with | some i => [i] | none => [])

/-! ## Turn orchestrator (`main` in index.ts, first variant)

The module-scoped mutable variables of `main` become the fields of `Orch`;
each UI/VAD callback becomes a state-transition function. The suspension
points (`await`) inside a handler take an oracle for the collaborator
outcome and a list of external events that the event loop may deliver
while the handler is suspended; between suspension points execution is
run-to-completion. -/

/-- The orchestrator's module-scoped state (`main`, index.ts). Object
references (`vad`, `stream`, `recorder`, `currentAudio`) are modelled by
presence flags; `recording` is `recorder.isRecording()`. -/
structure Orch where
  state : WState
  inFlight : Bool
  vadOn : Bool
  streamOn : Bool
  recorderOn : Bool
  recording : Bool
  mode : Mode
  micMuted : Bool
  speakerMuted : Bool
  currentAudio : Bool
  pendingListenAfterSpeak : Bool
  pendingStopVoiceAfterTurn : Bool
  bootGreetingDisplayed : Bool
  bootGreetingSpoken : Bool
  consent : Bool
  hasSession : Bool
  errorMsg : Option String
deriving Repr, DecidableEq

/-- Externally visible actions performed by a handler. -/
inductive Act where
  | asrCall
  | chatCall (userText : String) (inputMode : Mode)
  | speakReq (text : String)
  | appendUser (text : String)
  | appendAssistant (text : String)
  | revealDone
  | stopPlayback
  | pipelineTeardown
  | teardownAll
  | micRequest
deriving Repr, DecidableEq

/-- Modelled from the spec: the orchestrator imports `reduceState` from
`stateMachine.ts`, a file not among the provided sources. Spec section 4.3
fixes the transitions the orchestrator relies on: a finalized speech
segment moves the machine to `thinking` (VAD_DONE), a received reply to
`speaking` (LLM_DONE), and the end of the speaking phase to `idle`
(TTS_END). -/
inductive TurnEvent where
  | VAD_DONE
  | LLM_DONE
  | TTS_END
deriving Repr, DecidableEq

/-- Modelled from the spec: see `TurnEvent`. -/
def reduceStateO (_ : WState) (e : TurnEvent) : WState :=
  match e with
  | TurnEvent.VAD_DONE => WState.thinking
  | TurnEvent.LLM_DONE => WState.speaking
  | TurnEvent.TTS_END => WState.idle

/-- Outcome of a `getUserMedia` microphone request. -/
inductive MicResult where
  | granted
  | denied
deriving Repr, DecidableEq

/-- Mirror of `String.trim` (used by the orchestrator on transcripts and
by the cache on keys) as a structurally recursive function, so that it
evaluates: strip leading and trailing whitespace characters. -/
def strTrim (s : String) : String :=
  String.mk (((s.data.dropWhile Char.isWhitespace).reverse.dropWhile
    Char.isWhitespace).reverse)

/-- Error message shown when the microphone is unavailable. -/
def micUnavailableMsg : String :=
  "Microphone is unavailable. Check browser permissions and tap the page to try again."

/-- Error message of the empty-transcript fallback (`stopAll("asr_empty", ...)`). -/
def asrEmptyMsg : String :=
  "I couldn't transcribe that. Please switch to Text mode and type your message."

/-- Generic message of the outer pipeline catch (`stopAll("pipeline", ...)`). -/
def pipelineErrMsg : String := "Something went wrong."

/-- Message of the text-path catch (`stopAll("chat_text", ...)`). -/
def chatFailedMsg : String := "Chat failed."

/-- Message shown when a text submission arrives in voice mode. -/
def switchToTextMsg : String := "Switch to Text mode to send a message."

/-- Message shown when a text submission arrives while a turn is in flight. -/
def waitMsg : String := "Please wait for the current reply to finish."

/-- Message shown when a text submission arrives before a session exists. -/
def initSessionMsg : String := "Initializing session. Please wait a moment and try again."

/-- Hint shown when both server TTS and the Web Speech fallback fail. -/
def audioHintMsg : String := "Audio couldn't play. Tap once to enable audio."

/-- Mirror of `stopVoicePipeline(opts)`: stop the VAD (stream included),
dispose the recorder, stop the stream tracks; optionally also stop
playback, clear `inFlight`, and force `idle`. -/
def stopVoicePipelineO (keepTts keepState keepInFlight : Bool) (s : Orch) : Orch :=
  { s with vadOn := false, recorderOn := false, recording := false, streamOn := false,
           currentAudio := if keepTts then s.currentAudio else false,
           inFlight := if keepInFlight then s.inFlight else false,
           state := if keepState then s.state else WState.idle }

/-- Mirror of `stopAll(phase, message)`: tear down every audio resource,
clear `inFlight`, force `idle`, and surface the message when given. -/
def stopAllO (msg : Option String) (s : Orch) : Orch :=
  let s := { s with vadOn := false, recorderOn := false, recording := false,
                    streamOn := false, currentAudio := false, inFlight := false,
                    state := WState.idle }
  match msg with
  | some m => { s with errorMsg := some m }
  | none => s

/-- Mirror of `ensureVoiceListening(reason)`: the gate checks of the
source (a sequence of early returns, folded here into one disjunction —
each simply returns with no effect), then microphone acquisition (reusing
an existing stream), recorder construction (`if (!recorder)`, an
idempotent assignment), VAD construction, and the transition to
`listening`. -/
def ensureVoiceListeningO (mic : MicResult) (s : Orch) : Orch × List Act :=
  if s.mode ≠ Mode.voice ∨ s.micMuted ∨ ¬ s.consent ∨ s.inFlight ∨
      s.state ≠ WState.idle ∨ (¬ s.bootGreetingDisplayed ∧ ¬ s.bootGreetingSpoken) ∨
      s.currentAudio ∨ s.pendingStopVoiceAfterTurn then (s, [])
  else if ¬ s.streamOn then
    match mic with
    | MicResult.denied =>
      ({ s with state := WState.idle, errorMsg := some micUnavailableMsg },
       [Act.micRequest])
    | MicResult.granted =>
      ({ s with streamOn := true, recorderOn := true, vadOn := true,
                state := WState.listening }, [Act.micRequest])
  else
    ({ s with recorderOn := true, vadOn := true, state := WState.listening }, [])

/-- Mirror of `maybeBootGreet(reason)`, run-to-completion (its internal
suspension points are not interleaved in this embedding, and the
`bootGreetingInFlight` deduplication is left implicit in the sequential
event model): skip once spoken or without a session; display the greeting
once; with the speaker muted, mark it done and re-enter the listening
gate; otherwise stop the VAD, speak the greeting, and on success mark it
spoken and re-enter the listening gate (on autoplay failure, return to
`idle` to retry on a later gesture). -/
def maybeBootGreetO (greetOk : Bool) (mic : MicResult) (s : Orch) : Orch × List Act :=
  if s.bootGreetingSpoken then (s, [])
  else if ¬ s.hasSession then (s, [])
  else
    let s := { s with bootGreetingDisplayed := true }
    if s.speakerMuted then
      let s := { s with bootGreetingSpoken := true, state := WState.idle }
      ensureVoiceListeningO mic s
    else
      let s := { s with vadOn := false, state := WState.speaking }
      if ¬ greetOk then ({ s with state := WState.idle }, [])
      else
        let s := { s with bootGreetingSpoken := true, state := WState.idle }
        ensureVoiceListeningO mic s

/-- Mirror of `onSelectMode(nextMode)`: switching to text while a voice
turn is mid-flight (listening, in flight, or recording) only sets the
deferred-stop flag; otherwise the mic pipeline stops immediately (keeping
any ongoing playback). Switching to voice during playback defers listening
to after playback; otherwise it re-enters the greeting and listening
gates. -/
def onSelectModeO (m : Mode) (greetOk : Bool) (mic : MicResult) (s : Orch) :
    Orch × List Act :=
  let s := { s with mode := m, errorMsg := none }
  match m with
  | Mode.text =>
    if s.state = WState.listening ∨ s.inFlight ∨ s.recording then
      ({ s with pendingStopVoiceAfterTurn := true }, [])
    else
      (stopVoicePipelineO true (s.state = WState.speaking) true s, [Act.pipelineTeardown])
  | Mode.voice =>
    if s.state = WState.speaking ∨ s.currentAudio then
      maybeBootGreetO greetOk mic
        { s with pendingListenAfterSpeak := true, state := WState.speaking }
    else
      let s := { s with state := WState.idle }
      let g := maybeBootGreetO greetOk mic s
      let e := ensureVoiceListeningO mic g.1
      (e.1, g.2 ++ e.2)

/-- Mirror of `onToggleMicMuted(next)`: muting tears the listening pipeline
down immediately (keeping playback and any in-flight non-listening work);
unmuting re-enters the greeting and listening gates. -/
def onToggleMicMutedO (next : Bool) (greetOk : Bool) (mic : MicResult) (s : Orch) :
    Orch × List Act :=
  let s := { s with micMuted := next }
  if next then
    (stopVoicePipelineO true (s.state = WState.speaking) true s, [Act.pipelineTeardown])
  else
    let s := { s with state := WState.idle }
    let g := maybeBootGreetO greetOk mic s
    let e := ensureVoiceListeningO mic g.1
    (e.1, g.2 ++ e.2)

/-- Mirror of `onToggleSpeakerMuted(next)`: never stops current playback
(only its volume/mute flags change, which this model keeps inside the
playback itself); unmuting retries the boot greeting. -/
def onToggleSpeakerMutedO (next : Bool) (greetOk : Bool) (mic : MicResult) (s : Orch) :
    Orch × List Act :=
  let s := { s with speakerMuted := next }
  if ¬ next then maybeBootGreetO greetOk mic s
  else (s, [])

/-- External events the event loop can deliver while a handler is
suspended at an `await`. Each carries the oracle its own nested calls
need. -/
inductive Ev where
  | selectMode (m : Mode) (greetOk : Bool) (mic : MicResult)
  | toggleMic (muted : Bool) (greetOk : Bool) (mic : MicResult)
  | toggleSpeaker (muted : Bool) (greetOk : Bool) (mic : MicResult)
deriving Repr, DecidableEq

/-- Dispatch one external event to its handler. -/
def applyEv (s : Orch) : Ev → Orch × List Act
  | Ev.selectMode m g mic => onSelectModeO m g mic s
  | Ev.toggleMic b g mic => onToggleMicMutedO b g mic s
  | Ev.toggleSpeaker b g mic => onToggleSpeakerMutedO b g mic s

/-- Deliver a list of external events in order. -/
def applyEvs (s : Orch) : List Ev → Orch × List Act
  | [] => (s, [])
  | e :: rest =>
    let r := applyEv s e
    let r2 := applyEvs r.1 rest
    (r2.1, r.2 ++ r2.2)

/-- Oracle for one `speak` invocation: whether the server-TTS fetch and
`play()` succeeded, whether the barge-in monitor interrupted the playback,
whether the Web Speech fallback produced audio, and the external events
delivered while the playback is awaited. -/
structure SpeakOracle where
  ttsOk : Bool
  interrupted : Bool
  webSpeechOk : Bool
  evs : List Ev
deriving Repr, DecidableEq

/-- Mirror of `speak(text, stream)` with `speakWithServerTts` inlined, at
the orchestrator level (the response cache is modelled separately by
`ttsStep`). With the speaker muted, no audio is generated but the text
reveal still completes and the turn proceeds. On the playback path the
audio element is live (`currentAudio`) while external events arrive; a
barge-in interruption additionally clears `pendingListenAfterSpeak`,
forces `idle` and re-enters the listening gate (a no-op there, since the
audio element is nulled only afterwards by the `finally`); the `finally`
then releases the element. If server TTS fails, the reveal still
completes, the Web Speech fallback is tried, and if both fail a hint is
surfaced (the `lastAudioHintAt` rate limiting of the hints, and the
transient speaker-muted hint, are not modelled: both are self-clearing UI
text). The returned flag is whether `speak` produced a non-null
result. -/
def speakRun (text : String) (o : SpeakOracle) (s : Orch) : Orch × (List Act × Bool) :=
  if s.speakerMuted then
    (s, ([Act.speakReq text, Act.revealDone], true))
  else if o.ttsOk then
    let mid := { s with currentAudio := true }
    let evr := applyEvs mid o.evs
    let fin :=
      { evr.1 with
        currentAudio := false,
        pendingListenAfterSpeak :=
          if o.interrupted then false else evr.1.pendingListenAfterSpeak,
        state := if o.interrupted then WState.idle else evr.1.state }
    let acts := [Act.speakReq text] ++ evr.2 ++
      (if o.interrupted then [Act.stopPlayback] else []) ++ [Act.revealDone]
    (fin, (acts, true))
  else
    let acts := [Act.speakReq text, Act.revealDone]
    if o.webSpeechOk then (s, (acts, true))
    else ({ s with errorMsg := some audioHintMsg }, (acts, false))

/-- Oracle for one voice turn started by `onSpeechEnd`: the transcription
outcome (`none` models a thrown error), the chat outcome, the speak
oracle, the external events delivered during the transcription and chat
awaits, and the microphone outcome should the post-turn listening gate
need to acquire a stream. -/
structure TurnOracle where
  asr : Option String
  chat : Option String
  speakO : SpeakOracle
  evAsr : List Ev
  evChat : List Ev
  micAfter : MicResult
deriving Repr, DecidableEq

/-- Mirror of the `onSpeechEnd` callback installed by `ensureVoiceListening`
(index.ts): drop the segment unless `listening` and not in flight; set
`inFlight`; move to `thinking`; pause the VAD keeping the stream; skip
tiny blobs (under 1200 bytes) and re-enter the gate; transcribe; on an
empty transcript run `stopAll` and force text mode; otherwise chat, move
to `speaking`, speak the reply, then clear `inFlight`, return to `idle`,
and either tear the voice pipeline down (deferred mode switch) or re-enter
the listening gate; any thrown error lands in `stopAll("pipeline")`. -/
def onSpeechEndRun (sizeBytes : Nat) (o : TurnOracle) (s : Orch) : Orch × List Act :=
  if s.state ≠ WState.listening ∨ s.inFlight then (s, [])
  else
    let s := { s with inFlight := true }
    let s := { s with state := reduceStateO s.state TurnEvent.VAD_DONE }
    let s := { s with vadOn := false, recording := false }
    if sizeBytes < 1200 then
      let s := { s with inFlight := false, state := WState.idle }
      let e := ensureVoiceListeningO o.micAfter s
      (e.1, e.2)
    else
      let r1 := applyEvs s o.evAsr
      match o.asr with
      | none =>
        (stopAllO (some pipelineErrMsg) r1.1,
         [Act.asrCall] ++ r1.2 ++ [Act.teardownAll])
      | some text =>
        let userText := strTrim text
        if userText = "" then
          let s := stopAllO (some asrEmptyMsg) r1.1
          let s := { s with mode := Mode.text }
          (s, [Act.asrCall] ++ r1.2 ++ [Act.teardownAll])
        else
          let r2 := applyEvs r1.1 o.evChat
          match o.chat with
          | none =>
            (stopAllO (some pipelineErrMsg) r2.1,
             [Act.asrCall] ++ r1.2 ++ [Act.appendUser userText,
              Act.chatCall userText Mode.voice] ++ r2.2 ++ [Act.teardownAll])
          | some reply =>
            let s := { r2.1 with state := reduceStateO r2.1.state TurnEvent.LLM_DONE }
            let sp := speakRun reply o.speakO s
            let s := { sp.1 with state := reduceStateO sp.1.state TurnEvent.TTS_END }
            let s := { s with inFlight := false }
            let s := { s with state := WState.idle }
            let acts := [Act.asrCall] ++ r1.2 ++ [Act.appendUser userText,
              Act.chatCall userText Mode.voice] ++ r2.2 ++
              [Act.appendAssistant reply] ++ sp.2.1
            if s.pendingStopVoiceAfterTurn ∨ s.mode = Mode.text then
              let s := { s with pendingStopVoiceAfterTurn := false }
              (stopVoicePipelineO true false false s, acts ++ [Act.pipelineTeardown])
            else
              let e := ensureVoiceListeningO o.micAfter s
              (e.1, acts ++ e.2)

/-- Oracle for one text turn started by `onSendText`. -/
structure TextOracle where
  chat : Option String
  speakO : SpeakOracle
  evChat : List Ev
  micAfter : MicResult
deriving Repr, DecidableEq

/-- Mirror of the `onSendText` UI callback (index.ts): reject outside text
mode, while a turn is in flight, or before a session exists; otherwise
pause any VAD, set `inFlight`, move to `thinking`, chat, move to
`speaking`, speak; a thrown error lands in `stopAll("chat_text")`; the
`finally` always clears `inFlight`, returns to `idle`, and honours a
deferred switch back to voice by re-entering the listening gate. -/
def onSendTextRun (text : String) (o : TextOracle) (s : Orch) : Orch × List Act :=
  let s := { s with errorMsg := none }
  if s.mode ≠ Mode.text then ({ s with errorMsg := some switchToTextMsg }, [])
  else if s.inFlight then ({ s with errorMsg := some waitMsg }, [])
  else if ¬ s.hasSession then ({ s with errorMsg := some initSessionMsg }, [])
  else
    let s := { s with vadOn := false, recording := false }
    let s := { s with inFlight := true, state := WState.thinking }
    let tryRes : Orch × List Act :=
      let r2 := applyEvs s o.evChat
      match o.chat with
      | none =>
        (stopAllO (some chatFailedMsg) r2.1,
         [Act.appendUser text, Act.chatCall text Mode.text] ++ r2.2 ++ [Act.teardownAll])
      | some reply =>
        let s := { r2.1 with state := WState.speaking }
        let sp := speakRun reply o.speakO s
        (sp.1, [Act.appendUser text, Act.chatCall text Mode.text] ++ r2.2 ++
          [Act.appendAssistant reply] ++ sp.2.1)
    let s := { tryRes.1 with inFlight := false, state := WState.idle }
    if s.pendingListenAfterSpeak ∧ s.mode = Mode.voice then
      let s := { s with pendingListenAfterSpeak := false }
      let e := ensureVoiceListeningO o.micAfter s
      (e.1, tryRes.2 ++ e.2)
    else (s, tryRes.2)

/-! ## Helper lemmas: VAD -/

/-- Any `speechEnd` event a single tick emits satisfies the
minimum-duration bound (the discard guard in `endSpeech`). -/
theorem vadTick_speechEnd_min (cfg : VadConfig) (smp : Sample) (s : VadState)
    (d b : Nat) (h : VadEvent.speechEnd d b ∈ (vadTick cfg smp s).2) :
    cfg.minSpeechMs ≤ d := by
  simp only [vadTick, endSpeech] at h
  repeat' split at h
  all_goals simp_all

/-- Any `speechEnd` event a run emits satisfies the minimum-duration
bound. -/
theorem runVad_speechEnd_min (cfg : VadConfig) (s : VadState)
    (samples : List Sample) (d b : Nat)
    (h : VadEvent.speechEnd d b ∈ (runVad cfg s samples).2) :
    cfg.minSpeechMs ≤ d := by
  induction samples generalizing s with
  | nil => simp [runVad] at h
  | cons smp rest ih =>
    simp only [runVad, List.mem_append] at h
    rcases h with h | h
    · exact vadTick_speechEnd_min cfg smp s d b h
    · exact ih _ h

/-! ## Claim C3: VAD segmentation policy -/

/-- C3: for every run of the per-tick sampler, from the idle sub-state a
sample with RMS at or above `rmsThreshold` transitions to `inSpeech`,
starts the recorder and emits `onSpeechStart` exactly once; from
`inSpeech`, the segment is finalized (recorder stopped, `onSpeechEnd`
with its duration and payload emitted unless discarded) exactly when
either continuous sub-threshold loudness has lasted `silenceMs` or the
elapsed time since speech start reaches `maxSpeechMs`, whichever comes
first. -/
theorem vad_segmentation_policy :
    (∀ (smp : Sample) (s : VadState), s.running = true → s.inSpeech = false →
      (vadTick VAD_CONFIG smp s).2 =
        (if VAD_CONFIG.rmsThreshold ≤ smp.rms then [VadEvent.speechStart] else []) ∧
      (vadTick VAD_CONFIG smp s).1.inSpeech = decide (VAD_CONFIG.rmsThreshold ≤ smp.rms) ∧
      (VAD_CONFIG.rmsThreshold ≤ smp.rms →
        (vadTick VAD_CONFIG smp s).1.recS.recording = true ∧
        (vadTick VAD_CONFIG smp s).1.speechStartAt = smp.t)) ∧
    (∀ (smp : Sample) (s : VadState), s.running = true → s.inSpeech = true →
      ((vadTick VAD_CONFIG smp s).1.inSpeech = false ↔
        (VAD_CONFIG.maxSpeechMs ≤ smp.t - s.speechStartAt ∨
         (smp.rms < VAD_CONFIG.rmsThreshold ∧
          VAD_CONFIG.silenceMs ≤ smp.t - s.lastVoiceAt))) ∧
      ((vadTick VAD_CONFIG smp s).1.inSpeech = false →
        ¬ smp.t - s.speechStartAt < VAD_CONFIG.minSpeechMs →
        ∃ b, (vadTick VAD_CONFIG smp s).2 =
          [VadEvent.speechEnd (smp.t - s.speechStartAt) b]) ∧
      ((vadTick VAD_CONFIG smp s).1.inSpeech = true →
        (vadTick VAD_CONFIG smp s).2 = [])) := by
  constructor
  · intro smp s hrun hsp
    simp only [vadTick, RecState.startRec, hrun, hsp]
    repeat' split
    all_goals simp_all
  · intro smp s hrun hsp
    refine ⟨?_, ?_, ?_⟩
    · simp only [vadTick, endSpeech, RecState.stopRec, hrun, hsp]
      repeat' split
      all_goals simp_all [VAD_CONFIG]
    · intro hfin hdur
      simp only [vadTick, endSpeech, RecState.stopRec, hrun, hsp] at hfin ⊢
      repeat' split at hfin
      all_goals repeat' split
      all_goals simp_all
    · intro hstay
      simp only [vadTick, endSpeech, RecState.stopRec, hrun, hsp] at hstay ⊢
      repeat' split at hstay
      all_goals repeat' split
      all_goals simp_all

/-- Closed witness for C3 at concrete inputs: a voiced sample from the
idle sub-state emits exactly one `speechStart`, and a silent sample after
700 ms of silence finalizes the segment. -/
theorem vad_segmentation_policy_witness :
    (vadTick VAD_CONFIG ⟨100, mkRat 3 100, 0⟩ vadInit).2 = [VadEvent.speechStart] ∧
    (vadTick VAD_CONFIG ⟨1100, 0, 0⟩
      { running := true, inSpeech := true, speechStartAt := 200, lastVoiceAt := 400,
        recS := { recording := true, chunks := 900 } }).1.inSpeech = false := by
  constructor
  · rw [(vad_segmentation_policy.1 ⟨100, mkRat 3 100, 0⟩ vadInit rfl rfl).1]
    decide
  · rw [(vad_segmentation_policy.2 ⟨1100, 0, 0⟩
      { running := true, inSpeech := true, speechStartAt := 200, lastVoiceAt := 400,
        recS := { recording := true, chunks := 900 } } rfl rfl).1]
    decide

/-! ## Claim C4: minimum-duration discard and the silence scenario -/

/-- C4 counterexample: in the spec scenario (loudness
`[0, 0, 0.03, 0.03, 0.03, 0, 0, 0]` at 100 ms ticks, threshold 0.02,
extended with silent ticks until the 700 ms silence timeout elapses) an
`onSpeechEnd` event does fire: `durationMs` is measured from speech start
to the finalizing tick, trailing silence included, so it is 900 ms — not
the 200 ms of voiced time — and passes the `minSpeechMs` check. -/
theorem vad_scenario_counterexample :
    (runVad VAD_CONFIG vadInit scenarioSamples).2 =
      [VadEvent.speechStart, VadEvent.speechEnd 900 1800] ∧
    VadEvent.speechEnd 900 1800 ∈ (runVad VAD_CONFIG vadInit scenarioSamples).2 := by
  constructor
  · decide
  · decide

/-- C4 (amended): every `onSpeechEnd` a run emits has
`durationMs ≥ minSpeechMs` (shorter finalized segments are silently
discarded), and in the scenario the segment is finalized at the silence
timeout with `durationMs = 900 ≥ minSpeechMs`, so `onSpeechEnd` fires. -/
theorem vad_min_duration_discard :
    (∀ (s : VadState) (samples : List Sample) (d b : Nat),
      VadEvent.speechEnd d b ∈ (runVad VAD_CONFIG s samples).2 →
      VAD_CONFIG.minSpeechMs ≤ d) ∧
    VadEvent.speechEnd 900 1800 ∈ (runVad VAD_CONFIG vadInit scenarioSamples).2 := by
  constructor
  · intro s samples d b h
    exact runVad_speechEnd_min VAD_CONFIG s samples d b h
  · decide

/-- Closed witness for C4 (amended), applying the discard bound to the
scenario's own emitted event. -/
theorem vad_min_duration_discard_witness :
    VAD_CONFIG.minSpeechMs ≤ 900 :=
  vad_min_duration_discard.1 vadInit scenarioSamples 900 1800
    vad_min_duration_discard.2

/-! ## Claim C9: segment end always recovers the sampler -/

/-- C9: every VAD segment end — by silence or by the maximum-duration
ceiling, discarded or not — stops the recorder (the payload is finalized
before the minimum-duration check, so a discarded segment still stops it)
and leaves the sampling loop running in its idle sub-state, from which a
subsequent voiced sample starts a new segment. -/
theorem vad_segment_end_recovery (smp : Sample) (s : VadState)
    (hrun : s.running = true) (hsp : s.inSpeech = true)
    (hend : VAD_CONFIG.maxSpeechMs ≤ smp.t - s.speechStartAt ∨
      (smp.rms < VAD_CONFIG.rmsThreshold ∧
       VAD_CONFIG.silenceMs ≤ smp.t - s.lastVoiceAt)) :
    (vadTick VAD_CONFIG smp s).1.recS.recording = false ∧
    (vadTick VAD_CONFIG smp s).1.running = true ∧
    (vadTick VAD_CONFIG smp s).1.inSpeech = false ∧
    (smp.t - s.speechStartAt < VAD_CONFIG.minSpeechMs →
      (vadTick VAD_CONFIG smp s).2 = []) ∧
    (∀ smp2 : Sample, VAD_CONFIG.rmsThreshold ≤ smp2.rms →
      (vadTick VAD_CONFIG smp2 (vadTick VAD_CONFIG smp s).1).2 =
        [VadEvent.speechStart] ∧
      (vadTick VAD_CONFIG smp2 (vadTick VAD_CONFIG smp s).1).1.inSpeech = true) := by
  have hcall : vadTick VAD_CONFIG smp s =
      endSpeech VAD_CONFIG smp.t
        { s with
          lastVoiceAt := if VAD_CONFIG.rmsThreshold ≤ smp.rms then smp.t else s.lastVoiceAt,
          recS := { recording := s.recS.recording,
                    chunks := s.recS.chunks +
                      (if s.recS.recording then smp.chunkBytes else 0) } } := by
    rcases hend with hmax | hsil2
    · simp [vadTick, hrun, hsp, hmax]
    · have hlow := not_le.2 hsil2.1
      by_cases hmax : VAD_CONFIG.maxSpeechMs ≤ smp.t - s.speechStartAt
      · simp [vadTick, hrun, hsp, hmax]
      · simp [vadTick, hrun, hsp, hmax, hlow, hsil2.2]
  rw [hcall]
  refine ⟨?_, ?_, ?_, ?_, ?_⟩
  · simp [endSpeech, RecState.stopRec]
  · simp [endSpeech, hrun]
  · simp [endSpeech]
  · intro hdur
    simp [endSpeech, hdur]
  · intro smp2 hv
    constructor
    · simp [vadTick, endSpeech, RecState.stopRec, RecState.startRec, hrun, hv]
    · simp [vadTick, endSpeech, RecState.stopRec, RecState.startRec, hrun, hv]

/-! ## Helper lemmas: response cache -/

/-- Membership in the keys of a deleted map. -/
theorem mem_mapKeys_mapDelete (m : List (String × Nat)) (k k2 : String) :
    k2 ∈ mapKeys (mapDelete m k) ↔ k2 ∈ mapKeys m ∧ k2 ≠ k := by
  simp only [mapKeys, mapDelete, List.mem_map, List.mem_filter]
  constructor
  · rintro ⟨p, ⟨hp, hne⟩, rfl⟩
    exact ⟨⟨p, hp, rfl⟩, by simpa using hne⟩
  · rintro ⟨⟨p, hp, rfl⟩, hne⟩
    exact ⟨p, ⟨hp, by simpa using hne⟩, rfl⟩

/-- Deleting only removes pairs, so the keys stay a sublist. -/
theorem mapDelete_keys_sublist (m : List (String × Nat)) (k : String) :
    (mapKeys (mapDelete m k)).Sublist (mapKeys m) :=
  List.Sublist.map _ (List.filter_sublist m)

/-- The keys after `mapSet`: unchanged on update, one new key on insert. -/
theorem mapSet_keys (m : List (String × Nat)) (k : String) (v : Nat) :
    mapKeys (mapSet m k v) =
      if m.any (fun p => p.1 == k) then mapKeys m else mapKeys m ++ [k] := by
  simp only [mapSet, mapKeys]
  split
  · rw [List.map_map]
    apply List.map_congr_left
    intro p _
    by_cases h : p.1 = k
    · simp [h]
    · simp [h]
  · simp

/-- The eviction loop always leaves the order list within the bound. -/
theorem evictLoop_length (m : List (String × Nat)) (o : List String) :
    (evictLoop m o).2.length ≤ 20 := by
  induction o generalizing m with
  | nil => simp [evictLoop]
  | cons k rest ih =>
    simp only [evictLoop]
    split
    · exact ih _
    · next h => exact Nat.le_of_not_lt h

/-- The eviction loop preserves the keys-within-order invariant. -/
theorem evictLoop_subset (m : List (String × Nat)) (o : List String)
    (h : ∀ k2, k2 ∈ mapKeys m → k2 ∈ o) :
    ∀ k2, k2 ∈ mapKeys (evictLoop m o).1 → k2 ∈ (evictLoop m o).2 := by
  induction o generalizing m with
  | nil =>
    intro k2 hk2
    simp only [evictLoop] at hk2
    exact absurd (h k2 hk2) (by simp)
  | cons k rest ih =>
    simp only [evictLoop]
    split
    · apply ih
      intro k2 hk2
      obtain ⟨hm, hne⟩ := (mem_mapKeys_mapDelete m k k2).1 hk2
      rcases List.mem_cons.1 (h k2 hm) with h1 | h1
      · exact absurd h1 hne
      · exact h1
    · exact h

/-- The eviction loop preserves key distinctness. -/
theorem evictLoop_nodup (m : List (String × Nat)) (o : List String)
    (h : (mapKeys m).Nodup) : (mapKeys (evictLoop m o).1).Nodup := by
  induction o generalizing m with
  | nil => simpa [evictLoop] using h
  | cons k rest ih =>
    simp only [evictLoop]
    split
    · exact ih _ (h.sublist (mapDelete_keys_sublist m k))
    · exact h

/-- The per-caller insertion block preserves the cache invariant. -/
theorem insertBlock_inv (k : String) (v : Nat) (s : CacheState)
    (h : cacheInv s) : cacheInv (insertBlock k v s) := by
  obtain ⟨_, hsub, hnd⟩ := h
  have hsub2 : ∀ k2, k2 ∈ mapKeys (mapSet s.cache k v) → k2 ∈ s.order ++ [k] := by
    intro k2 hk2
    rw [mapSet_keys] at hk2
    split at hk2
    · exact List.mem_append_left _ (hsub k2 hk2)
    · rcases List.mem_append.1 hk2 with h1 | h1
      · exact List.mem_append_left _ (hsub k2 h1)
      · exact List.mem_append_right _ h1
  have hnd2 : (mapKeys (mapSet s.cache k v)).Nodup := by
    rw [mapSet_keys]
    split
    · exact hnd
    · next hany =>
      have hk : k ∉ mapKeys s.cache := by
        intro hk
        apply hany
        rw [List.any_eq_true]
        obtain ⟨p, hp, rfl⟩ := List.mem_map.1 hk
        exact ⟨p, hp, by simp⟩
      rw [List.nodup_append]
      refine ⟨hnd, by simp, ?_⟩
      intro a ha hb
      rw [List.mem_singleton] at hb
      exact hk (hb ▸ ha)
  exact ⟨evictLoop_length _ _, evictLoop_subset _ _ hsub2, evictLoop_nodup _ _ hnd2⟩

/-- Folding the insertion block over a cohort preserves the invariant. -/
theorem foldl_insertBlock_inv (k : String) (v : Nat)
    (cohort : List (Nat × String)) (s : CacheState) (h : cacheInv s) :
    cacheInv (cohort.foldl (fun acc _ => insertBlock k v acc) s) := by
  induction cohort generalizing s with
  | nil => exact h
  | cons c rest ih => exact ih _ (insertBlock_inv k v s h)

/-- Every cache step preserves the invariant. -/
theorem ttsStep_inv (s : CacheState) (e : TtsReqEv) (h : cacheInv s) :
    cacheInv (ttsStep s e).1 := by
  obtain ⟨h1, h2, h3⟩ := h
  cases e with
  | request c k =>
    simp only [ttsStep]
    cases mapGet s.cache k with
    | some v => exact ⟨h1, h2, h3⟩
    | none =>
      simp only
      split
      · exact ⟨h1, h2, h3⟩
      · exact ⟨h1, h2, h3⟩
  | fetchResolve k v =>
    simp only [ttsStep]
    exact foldl_insertBlock_inv k v _ _ ⟨h1, h2, h3⟩
  | fetchReject k => exact ⟨h1, h2, h3⟩

/-- A run from a state satisfying the invariant keeps it. -/
theorem runTts_inv (evs : List TtsReqEv) (s : CacheState) (h : cacheInv s) :
    cacheInv (runTts s evs).1 := by
  induction evs generalizing s with
  | nil => exact h
  | cons e rest ih => exact ih _ (ttsStep_inv s e h)

/-- Under the invariant the cache map itself has at most 20 entries. -/
theorem cacheInv_length (s : CacheState) (h : cacheInv s) :
    s.cache.length ≤ 20 := by
  obtain ⟨h1, h2, h3⟩ := h
  have hsp : List.Subperm (mapKeys s.cache) s.order := List.subperm_of_subset h3 h2
  calc s.cache.length = (mapKeys s.cache).length := (List.length_map _ _).symm
    _ ≤ s.order.length := hsp.length_le
    _ ≤ 20 := h1

/-- The outputs of a resolve step contain no synthesis call. -/
theorem countCalls_delivered (k : String) (v : Nat) (ws : List (Nat × String)) :
    countCalls k (ws.map (fun w => TtsOut.delivered w.1 v)) = 0 := by
  simp only [countCalls, List.countP_map]
  rw [List.countP_eq_zero]
  intro w _
  simp [Function.comp]

/-- The outputs of a reject step contain no synthesis call. -/
theorem countCalls_failed (k : String) (ws : List (Nat × String)) :
    countCalls k (ws.map (fun w => TtsOut.failed w.1)) = 0 := by
  simp only [countCalls, List.countP_map]
  rw [List.countP_eq_zero]
  intro w _
  simp [Function.comp]

/-- The insertion block does not touch the in-flight map, so neither does
folding it over a cohort. -/
theorem foldl_insertBlock_inflight (k : String) (v : Nat)
    (cohort : List (Nat × String)) (st : CacheState) :
    (cohort.foldl (fun acc _ => insertBlock k v acc) st).inflight = st.inflight := by
  induction cohort generalizing st with
  | nil => rfl
  | cons c rest ih => rw [List.foldl_cons, ih]; rfl

/-- Membership in the in-flight list survives removing a different key. -/
theorem mem_filter_ne_key (k k2 : String) (l : List String) (h : k ≠ k2) :
    (k ∈ l.filter (fun x => x != k2)) ↔ k ∈ l := by
  simp [List.mem_filter, h]

/-- A key never survives its own removal from the in-flight list. -/
theorem not_mem_filter_self_key (k2 : String) (l : List String) :
    k2 ∉ l.filter (fun x => x != k2) := by
  simp [List.mem_filter]

/-- One-step budget inequality: a step can create an underlying fetch task
for `k` only by consuming the free slot (which exists only while `k` is
not in flight), and only a settle event for `k` frees the slot again. -/
theorem ttsStep_calls_le (k : String) (s : CacheState) (e : TtsReqEv) :
    countCalls k (ttsStep s e).2 +
        (if k ∈ (ttsStep s e).1.inflight then 0 else 1) ≤
      countSettles k [e] + (if k ∈ s.inflight then 0 else 1) := by
  cases e with
  | request c k2 =>
    have hset : countSettles k [TtsReqEv.request c k2] = 0 := by
      simp [countSettles]
    rw [hset]
    cases hg : mapGet s.cache k2 with
    | some v => simp [ttsStep, hg, countCalls]
    | none =>
      by_cases hin : k2 ∈ s.inflight
      · simp [ttsStep, hg, hin, countCalls]
      · by_cases hk : k = k2
        · subst hk
          have h1 : k ∈ s.inflight ++ [k] := by simp
          simp [ttsStep, hg, hin, h1, countCalls]
        · have h2 : (k ∈ s.inflight ++ [k2]) ↔ k ∈ s.inflight := by
            simp [hk]
          simp only [ttsStep, hg, if_neg hin]
          simp [h2, countCalls, List.countP_cons, hk, Ne.symm hk]
  | fetchResolve k2 v =>
    have hinf : (ttsStep s (TtsReqEv.fetchResolve k2 v)).1.inflight =
        s.inflight.filter (fun x => x != k2) := by
      simp only [ttsStep, foldl_insertBlock_inflight]
    have hout : countCalls k (ttsStep s (TtsReqEv.fetchResolve k2 v)).2 = 0 := by
      simp only [ttsStep]
      exact countCalls_delivered k v _
    rw [hout, hinf]
    by_cases hk : k = k2
    · subst hk
      have h1 : k ∉ s.inflight.filter (fun x => x != k) := not_mem_filter_self_key k _
      simp [h1, countSettles]
    · rw [if_congr (mem_filter_ne_key k k2 s.inflight hk) rfl rfl]
      have hset : countSettles k [TtsReqEv.fetchResolve k2 v] = 0 := by
        simp [countSettles, Ne.symm hk]
      omega
  | fetchReject k2 =>
    have hinf : (ttsStep s (TtsReqEv.fetchReject k2)).1.inflight =
        s.inflight.filter (fun x => x != k2) := rfl
    have hout : countCalls k (ttsStep s (TtsReqEv.fetchReject k2)).2 = 0 := by
      simp only [ttsStep]
      exact countCalls_failed k _
    rw [hout, hinf]
    by_cases hk : k = k2
    · subst hk
      have h1 : k ∉ s.inflight.filter (fun x => x != k) := not_mem_filter_self_key k _
      simp [h1, countSettles]
    · rw [if_congr (mem_filter_ne_key k k2 s.inflight hk) rfl rfl]
      have hset : countSettles k [TtsReqEv.fetchReject k2] = 0 := by
        simp [countSettles, Ne.symm hk]
      omega

/-- The in-flight budget argument: the number of underlying fetch tasks a
run creates for a key is bounded by the settle events for that key plus
one slot that is free only while the key is not in flight. -/
theorem runTts_calls_bound (k : String) (evs : List TtsReqEv) (s : CacheState) :
    countCalls k (runTts s evs).2 ≤
      countSettles k evs + (if k ∈ s.inflight then 0 else 1) := by
  induction evs generalizing s with
  | nil => simp [runTts, countCalls, countSettles]
  | cons e rest ih =>
    have hstep := ttsStep_calls_le k s e
    have hrest := ih (ttsStep s e).1
    have hsplit : countCalls k (runTts s (e :: rest)).2 =
        countCalls k (ttsStep s e).2 + countCalls k (runTts (ttsStep s e).1 rest).2 := by
      simp [runTts, countCalls, List.countP_append]
    have hset : countSettles k (e :: rest) =
        countSettles k [e] + countSettles k rest := by
      simp [countSettles, List.countP_cons]
      omega
    omega

/-- The eviction loop is the identity when the order list is within the
bound. -/
theorem evictLoop_eq_self (m : List (String × Nat)) (o : List String)
    (h : o.length ≤ 20) : evictLoop m o = (m, o) := by
  cases o with
  | nil => rfl
  | cons a rest =>
    simp only [evictLoop]
    split
    · omega
    · rfl

/-- One unfolding of the eviction loop past the bound. -/
theorem evictLoop_cons_gt (m : List (String × Nat)) (a : String)
    (rest : List String) (h : 20 < (a :: rest).length) :
    evictLoop m (a :: rest) = evictLoop (mapDelete m a) rest := by
  simp only [evictLoop]
  split
  · rfl
  · omega

/-- The invariant holds of the empty cache. -/
theorem cacheInv_empty : cacheInv emptyCache := by
  refine ⟨by simp [emptyCache], ?_, by simp [emptyCache, mapKeys]⟩
  intro k2 hk2
  simp [emptyCache, mapKeys] at hk2

/-! ## Claim C5: response-cache contract -/

/-- C5: after any sequence of synthesis requests the cache holds at most
20 entries; a cache hit returns the stored payload with no underlying
synthesis call; a request for a key already in flight joins the pending
fetch (no new call), and at resolution every joined caller receives the
fetched payload; while a fetch for a key is pending (no settle event) at
most one underlying synthesis call is ever created for it; and resolving
a 21st distinct key against a full cache evicts exactly the oldest key
(FIFO) while storing the new one. -/
theorem tts_cache_contract :
    (∀ evs : List TtsReqEv, (runTts emptyCache evs).1.cache.length ≤ 20) ∧
    (∀ (s : CacheState) (c : Nat) (k : String) (v : Nat),
      mapGet s.cache k = some v →
      ttsStep s (TtsReqEv.request c k) = (s, [TtsOut.delivered c v])) ∧
    (∀ (s : CacheState) (c : Nat) (k : String),
      mapGet s.cache k = none → k ∈ s.inflight →
      ttsStep s (TtsReqEv.request c k) =
        ({ s with waiting := s.waiting ++ [(c, k)] }, [])) ∧
    (∀ (s : CacheState) (c : Nat) (k : String) (v : Nat),
      (c, k) ∈ s.waiting →
      TtsOut.delivered c v ∈ (ttsStep s (TtsReqEv.fetchResolve k v)).2) ∧
    (∀ (evs : List TtsReqEv) (k : String),
      countSettles k evs = 0 →
      countCalls k (runTts emptyCache evs).2 ≤ 1) ∧
    (∀ (s : CacheState) (c : Nat) (k0 : String) (rest : List String)
       (k : String) (v : Nat),
      s.order = k0 :: rest → s.order.length = 20 → k ∉ s.order →
      (∀ k2, k2 ∈ mapKeys s.cache → k2 ∈ s.order) →
      s.waiting.filter (fun w => w.2 == k) = [(c, k)] →
      (ttsStep s (TtsReqEv.fetchResolve k v)).1.order = rest ++ [k] ∧
      k0 ∉ mapKeys (ttsStep s (TtsReqEv.fetchResolve k v)).1.cache ∧
      (k, v) ∈ (ttsStep s (TtsReqEv.fetchResolve k v)).1.cache) := by
  refine ⟨?_, ?_, ?_, ?_, ?_, ?_⟩
  · intro evs
    exact cacheInv_length _ (runTts_inv evs emptyCache cacheInv_empty)
  · intro s c k v h
    simp [ttsStep, h]
  · intro s c k hget hin
    simp [ttsStep, hget, hin]
  · intro s c k v hmem
    simp only [ttsStep, List.mem_map]
    refine ⟨(c, k), ?_, rfl⟩
    rw [List.mem_filter]
    exact ⟨hmem, by simp⟩
  · intro evs k h0
    have := runTts_calls_bound k evs emptyCache
    simp only [h0, emptyCache] at this
    simpa using this
  · intro s c k0 rest k v horder hlen hnew hsub hwait
    have h19 : rest.length = 19 := by
      rw [horder] at hlen
      simpa using hlen
    have hkne : k ≠ k0 := by
      intro he
      exact hnew (he ▸ (horder ▸ List.mem_cons_self k0 rest))
    have hnokey : ¬ s.cache.any (fun p => p.1 == k) := by
      intro hany
      rw [List.any_eq_true] at hany
      obtain ⟨p, hp, hpk⟩ := hany
      have hpe : p.1 = k := by simpa using hpk
      have hmemo : p.1 ∈ s.order := hsub p.1 (List.mem_map.2 ⟨p, hp, rfl⟩)
      rw [hpe] at hmemo
      exact hnew hmemo
    have hstep : (ttsStep s (TtsReqEv.fetchResolve k v)).1 =
        insertBlock k v
          { s with inflight := s.inflight.filter (fun k2 => k2 != k),
                   waiting := s.waiting.filter (fun w => w.2 != k) } := by
      simp only [ttsStep, hwait, List.foldl_cons, List.foldl_nil]
    have hins : insertBlock k v
        { s with inflight := s.inflight.filter (fun k2 => k2 != k),
                 waiting := s.waiting.filter (fun w => w.2 != k) } =
        { cache := mapDelete (s.cache ++ [(k, v)]) k0, order := rest ++ [k],
          inflight := s.inflight.filter (fun k2 => k2 != k),
          waiting := s.waiting.filter (fun w => w.2 != k) } := by
      simp only [insertBlock, mapSet, hnokey, if_neg, if_false, horder]
      have hgt : 20 < (k0 :: (rest ++ [k])).length := by
        simp [h19]
      rw [show (k0 :: rest) ++ [k] = k0 :: (rest ++ [k]) from rfl,
        evictLoop_cons_gt _ _ _ hgt,
        evictLoop_eq_self _ _ (by simp [h19])]
      simp
    rw [hstep, hins]
    refine ⟨rfl, ?_, ?_⟩
    · intro hk0
      exact ((mem_mapKeys_mapDelete _ _ _).1 hk0).2 rfl
    · simp only [mapDelete, List.mem_filter]
      exact ⟨List.mem_append_right _ (by simp), by simpa using hkne⟩

/-- Closed witness for C5: a concrete cache hit, and a concrete 21st-key
insertion against a full 20-entry cache evicting the oldest key. -/
theorem tts_cache_contract_witness :
    ttsStep cacheFull (TtsReqEv.request 3 "a") = (cacheFull, [TtsOut.delivered 3 1]) ∧
    (ttsStep cacheFullWaiting (TtsReqEv.fetchResolve "u" 21)).1.order =
      ["b", "c", "d", "e", "f", "g", "h", "i", "j", "k", "l", "m", "n", "o", "p",
       "q", "r", "s", "t", "u"] ∧
    "a" ∉ mapKeys (ttsStep cacheFullWaiting (TtsReqEv.fetchResolve "u" 21)).1.cache ∧
    ("u", 21) ∈ (ttsStep cacheFullWaiting (TtsReqEv.fetchResolve "u" 21)).1.cache := by
  constructor
  · exact tts_cache_contract.2.1 cacheFull 3 "a" 1 (by decide)
  · have h := tts_cache_contract.2.2.2.2.2 cacheFullWaiting 9 "a"
      ["b", "c", "d", "e", "f", "g", "h", "i", "j", "k", "l", "m", "n", "o", "p",
       "q", "r", "s", "t"] "u" 21 (by decide) (by decide) (by decide)
      (by decide) (by decide)
    exact ⟨h.1, h.2.1, h.2.2⟩

/-! ## Claim C8: failed synthesis is never cached -/

/-- C8: when the underlying synthesis fetch for a key ultimately rejects —
which per `fetchEvent` includes the case where the one retry also fails —
no cache entry is stored for the key (cache and order are untouched), the
in-flight entry for the key is removed, and a later request for the same
uncached key creates a new underlying synthesis call. -/
theorem tts_failure_not_cached :
    (∀ (k : String) (r : Bool),
      fetchEvent k none r none = TtsReqEv.fetchReject k) ∧
    (∀ (s : CacheState) (k : String),
      (ttsStep s (TtsReqEv.fetchReject k)).1.cache = s.cache ∧
      (ttsStep s (TtsReqEv.fetchReject k)).1.order = s.order ∧
      k ∉ (ttsStep s (TtsReqEv.fetchReject k)).1.inflight) ∧
    (∀ (s : CacheState) (c : Nat) (k : String),
      mapGet s.cache k = none →
      (ttsStep (ttsStep s (TtsReqEv.fetchReject k)).1 (TtsReqEv.request c k)).2 =
        [TtsOut.synthesisCall k]) := by
  refine ⟨?_, ?_, ?_⟩
  · intro k r
    cases r <;> rfl
  · intro s k
    refine ⟨rfl, rfl, ?_⟩
    exact not_mem_filter_self_key k s.inflight
  · intro s c k hget
    simp [ttsStep, hget, not_mem_filter_self_key]

/-- Closed witness for C8: a rejected fetch for a concrete key leaves the
cache empty and a retry issues a fresh synthesis call. -/
theorem tts_failure_not_cached_witness :
    (ttsStep (ttsStep cacheBusy (TtsReqEv.fetchReject "hi")).1
      (TtsReqEv.request 2 "hi")).2 = [TtsOut.synthesisCall "hi"] :=
  tts_failure_not_cached.2.2 cacheBusy 2 "hi" (by decide)

/-! ## Helper lemmas: barge-in monitor -/

/-- With the guard context healthy, an active hold timer, and every sample
at or above the barge-in threshold, the monitor triggers exactly at the
first tick whose time is at least `minHoldMs` past the hold start. -/
theorem bargeRun_some_char (env : BargeEnv) (a0 : Nat) (l : List (Nat × ℚ))
    (hg : bargeGuardFails env = false)
    (hall : ∀ p ∈ l, bargeThreshold ≤ p.2) :
    bargeRun env (some a0) l =
      (l.find? (fun p => decide (minHoldMs ≤ p.1 - a0))).map (fun p => p.1) := by
  induction l with
  | nil => rfl
  | cons p rest ih =>
    have hp := hall p (List.mem_cons_self p rest)
    by_cases hh : minHoldMs ≤ p.1 - a0
    · simp only [bargeRun, bargeTick, hg, hp, Bool.false_eq_true, if_false,
        if_pos hp, Option.getD_some, if_pos hh]
      rw [List.find?_cons_of_pos _ (by simpa using hh)]
      rfl
    · simp only [bargeRun, bargeTick, hg, Bool.false_eq_true, if_false,
        if_pos hp, Option.getD_some, if_neg hh]
      rw [List.find?_cons_of_neg _ (by simpa using hh)]
      exact ih (fun q hq => hall q (List.mem_cons_of_mem p hq))

/-! ## Claim C10: at most one barge-in analysis graph -/

/-- C10: the barge-in monitor never holds more than one analysis graph:
`startBargeInMonitor` tears down any existing monitor before building a
new one (also when graph construction itself fails), `stopBargeInMonitor`
is idempotent and a no-op when no monitor is active, well-formedness (the
open graphs are exactly the current one, hence never more than one) is
preserved by both, and every playback exit path (natural end, error,
interruption) leaves no open graph. -/
theorem barge_monitor_single_graph :
    (∀ r : BargeRes, stopBargeInMonitorO (stopBargeInMonitorO r) =
      stopBargeInMonitorO r) ∧
    (∀ r : BargeRes, r.current = none → stopBargeInMonitorO r = r) ∧
    (∀ r : BargeRes, r.wf → (stopBargeInMonitorO r).wf) ∧
    (∀ (g a : Bool) (r : BargeRes), r.wf → (startBargeInMonitorO g a r).wf) ∧
    (∀ r : BargeRes, r.wf → r.openCtxs.length ≤ 1) ∧
    (∀ (g a : Bool) (hexit : PlayExit) (r : BargeRes), r.wf →
      (playbackRun g a hexit r).openCtxs = [] ∧
      (playbackRun g a hexit r).current = none) := by
  have hstopwf : ∀ r : BargeRes, r.wf → (stopBargeInMonitorO r).wf := by
    intro r hwf
    cases hc : r.current with
    | none => simpa [stopBargeInMonitorO, hc] using hwf
    | some i =>
      have : r.openCtxs = [i] := by simpa [BargeRes.wf, hc] using hwf
      simp [stopBargeInMonitorO, hc, BargeRes.wf, this]
  have hstopnone : ∀ r : BargeRes, r.wf → (stopBargeInMonitorO r).current = none ∧
      (stopBargeInMonitorO r).openCtxs = [] := by
    intro r hwf
    cases hc : r.current with
    | none =>
      have : r.openCtxs = [] := by simpa [BargeRes.wf, hc] using hwf
      simp [stopBargeInMonitorO, hc, this]
    | some i =>
      have : r.openCtxs = [i] := by simpa [BargeRes.wf, hc] using hwf
      simp [stopBargeInMonitorO, hc, this]
  have hstartwf : ∀ (g a : Bool) (r : BargeRes), r.wf →
      (startBargeInMonitorO g a r).wf := by
    intro g a r hwf
    have h1 := hstopwf r hwf
    have h2 := hstopnone r hwf
    simp only [startBargeInMonitorO]
    revert h1 h2
    generalize stopBargeInMonitorO r = q
    intro h1 h2
    rcases h2 with ⟨hcur, hopen⟩
    split
    · exact h1
    · split
      · simp [BargeRes.wf, hopen]
      · simp [stopBargeInMonitorO, BargeRes.wf, hopen]
  refine ⟨?_, ?_, hstopwf, hstartwf, ?_, ?_⟩
  · intro r
    cases hc : r.current <;> simp [stopBargeInMonitorO, hc]
  · intro r hc
    simp [stopBargeInMonitorO, hc]
  · intro r hwf
    cases hc : r.current with
    | none =>
      have : r.openCtxs = [] := by simpa [BargeRes.wf, hc] using hwf
      simp [this]
    | some i =>
      have : r.openCtxs = [i] := by simpa [BargeRes.wf, hc] using hwf
      simp [this]
  · intro g a hexit r hwf
    have h1 : (startBargeInMonitorO g a r).wf := hstartwf g a r hwf
    have h2 : ∀ q : BargeRes, q.wf →
        (stopBargeInMonitorO q).openCtxs = [] ∧
        (stopBargeInMonitorO q).current = none := by
      intro q hq
      exact ⟨(hstopnone q hq).2, (hstopnone q hq).1⟩
    cases hexit with
    | natural => exact h2 _ h1
    | errored => exact h2 _ h1
    | interrupted => exact h2 _ (hstopwf _ h1)

/-- Closed witness for C10 at a concrete monitor state with one open
graph. -/
theorem barge_monitor_single_graph_witness :
    (playbackRun true true PlayExit.interrupted
      { openCtxs := [4], current := some 4, nextId := 5 }).openCtxs = [] := by
  exact (barge_monitor_single_graph.2.2.2.2.2 true true PlayExit.interrupted
    { openCtxs := [4], current := some 4, nextId := 5 } (by simp [BargeRes.wf])).1

/-! ## Claim C2: barge-in hold logic and interruption -/

/-- C2: while the assistant is speaking with the guard context healthy
(audio element live, voice mode, mic and speaker unmuted), a loudness
sample below the barge-in threshold resets the hold timer and causes no
interruption; a sample at or above it keeps the hold start and triggers
exactly when the hold has lasted `minHoldMs`; over a run of continuously
above-threshold samples the interruption fires at the first tick at which
the hold threshold has been met (hence within one scheduler tick of it);
and a triggered interruption stops playback and, once the interrupted
turn runs to completion, leaves ConversationState at `listening`. -/
theorem barge_in_contract :
    (∀ (env : BargeEnv) (t : Nat) (rms : ℚ) (a : Option Nat),
      bargeGuardFails env = false → rms < bargeThreshold →
      bargeTick env t rms a = (none, BargeOut.continued)) ∧
    (∀ (env : BargeEnv) (t : Nat) (rms : ℚ) (a0 : Nat),
      bargeGuardFails env = false → bargeThreshold ≤ rms →
      bargeTick env t rms (some a0) =
        (some a0,
         if minHoldMs ≤ t - a0 then BargeOut.triggered else BargeOut.continued)) ∧
    (∀ (env : BargeEnv) (t0 : Nat) (r0 : ℚ) (rest : List (Nat × ℚ)),
      bargeGuardFails env = false → bargeThreshold ≤ r0 → 0 < minHoldMs →
      (∀ p ∈ rest, bargeThreshold ≤ p.2) →
      bargeRun env none ((t0, r0) :: rest) =
        (rest.find? (fun p => decide (minHoldMs ≤ p.1 - t0))).map (fun p => p.1)) ∧
    (∀ (u reply : String) (w : Bool) (mic : MicResult) (sz : Nat)
       (bd pl rc hs : Bool) (em : Option String),
      strTrim u ≠ "" → 1200 ≤ sz →
      Act.stopPlayback ∈
        (onSpeechEndRun sz
          ⟨some u, some reply, ⟨true, true, w, []⟩, [], [], mic⟩
          ⟨WState.listening, false, true, true, true, rc, Mode.voice, false, false,
           false, pl, false, bd, true, true, hs, em⟩).2 ∧
      (onSpeechEndRun sz
          ⟨some u, some reply, ⟨true, true, w, []⟩, [], [], mic⟩
          ⟨WState.listening, false, true, true, true, rc, Mode.voice, false, false,
           false, pl, false, bd, true, true, hs, em⟩).1.state = WState.listening) := by
  refine ⟨?_, ?_, ?_, ?_⟩
  · intro env t rms a hg hlow
    simp [bargeTick, hg, Nat.not_le, not_le.2 hlow]
  · intro env t rms a0 hg hhigh
    simp [bargeTick, hg, hhigh]
    split <;> rfl
  · intro env t0 r0 rest hg hhigh hhold hall
    have h1 : ¬ minHoldMs ≤ t0 - t0 := by omega
    simp only [bargeRun, bargeTick, hg, Bool.false_eq_true, if_false,
      if_pos hhigh, Option.getD_none, if_neg h1]
    exact bargeRun_some_char env t0 rest hg hall
  · intro u reply w mic sz bd pl rc hs em htrim hsz
    have hns : ¬ sz < 1200 := Nat.not_lt.2 hsz
    constructor
    · simp [onSpeechEndRun, applyEvs, speakRun, reduceStateO,
        ensureVoiceListeningO, hns, htrim]
    · simp [onSpeechEndRun, applyEvs, speakRun, reduceStateO,
        ensureVoiceListeningO, hns, htrim]

/-- Closed witness for C2: a concrete dip resets the timer; a concrete
hold of 260 ms triggers; a concrete interrupted turn ends listening. -/
theorem barge_in_contract_witness :
    bargeTick ⟨Mode.voice, false, false, true, false, false⟩ 500 (mkRat 5 100)
      (some 100) = (none, BargeOut.continued) ∧
    bargeTick ⟨Mode.voice, false, false, true, false, false⟩ 500 (mkRat 12 100)
      (some 100) = (some 100, BargeOut.triggered) ∧
    (onSpeechEndRun 2000
        ⟨some "hello", some "hi there", ⟨true, true, false, []⟩, [],
         [], MicResult.granted⟩
        ⟨WState.listening, false, true, true, true, false, Mode.voice, false, false,
         false, false, false, true, true, true, true, none⟩).1.state =
      WState.listening := by
  refine ⟨?_, ?_, ?_⟩
  · exact barge_in_contract.1 ⟨Mode.voice, false, false, true, false, false⟩ 500
      (mkRat 5 100) (some 100) (by decide) (by decide)
  · have h := barge_in_contract.2.1 ⟨Mode.voice, false, false, true, false, false⟩
      500 (mkRat 12 100) 100 (by decide) (by decide)
    rw [h]
    decide
  · exact (barge_in_contract.2.2.2 "hello" "hi there" false MicResult.granted 2000
      true false false true none (by decide) (by decide)).2

/-! ## Helper lemmas: the orchestrator handlers never touch `inFlight` -/

/-- The listening gate never changes the in-flight flag. -/
theorem ensureVoiceListeningO_inFlight (mic : MicResult) (s : Orch) :
    (ensureVoiceListeningO mic s).1.inFlight = s.inFlight := by
  simp only [ensureVoiceListeningO]
  repeat' split
  all_goals rfl

/-- The boot-greeting flow never changes the in-flight flag. -/
theorem maybeBootGreetO_inFlight (g : Bool) (mic : MicResult) (s : Orch) :
    (maybeBootGreetO g mic s).1.inFlight = s.inFlight := by
  simp only [maybeBootGreetO]
  repeat' split
  all_goals simp [ensureVoiceListeningO_inFlight]

/-- `stopVoicePipeline` with `keepInFlight` leaves the flag alone. -/
theorem stopVoicePipelineO_inFlight_keep (kt ks : Bool) (s : Orch) :
    (stopVoicePipelineO kt ks true s).inFlight = s.inFlight := by
  simp [stopVoicePipelineO]

/-- No external event handler (mode switch, mic mute, speaker mute) ever
changes the in-flight flag. -/
theorem applyEv_inFlight (e : Ev) (s : Orch) :
    (applyEv s e).1.inFlight = s.inFlight := by
  cases e with
  | selectMode m g mic =>
    cases m with
    | text =>
      simp only [applyEv, onSelectModeO]
      split
      · rfl
      · simp [stopVoicePipelineO]
    | voice =>
      simp only [applyEv, onSelectModeO]
      split
      · rw [maybeBootGreetO_inFlight]
      · rw [ensureVoiceListeningO_inFlight, maybeBootGreetO_inFlight]
  | toggleMic b g mic =>
    cases b with
    | true => simp [applyEv, onToggleMicMutedO, stopVoicePipelineO]
    | false =>
      simp only [applyEv, onToggleMicMutedO, Bool.false_eq_true, if_false]
      rw [ensureVoiceListeningO_inFlight, maybeBootGreetO_inFlight]
  | toggleSpeaker b g mic =>
    simp only [applyEv, onToggleSpeakerMutedO]
    split
    · rw [maybeBootGreetO_inFlight]
    · rfl

/-- Delivering any list of external events preserves the in-flight flag. -/
theorem applyEvs_inFlight (evs : List Ev) (s : Orch) :
    (applyEvs s evs).1.inFlight = s.inFlight := by
  induction evs generalizing s with
  | nil => rfl
  | cons e rest ih =>
    simp only [applyEvs]
    rw [ih, applyEv_inFlight]

/-- A `speak` run (playback plus any events delivered during it) preserves
the in-flight flag. -/
theorem speakRun_inFlight (text : String) (o : SpeakOracle) (s : Orch) :
    (speakRun text o s).1.inFlight = s.inFlight := by
  simp only [speakRun]
  repeat' split
  all_goals simp [applyEvs_inFlight]

/-! ## Claim C1: at most one turn in flight -/

/-- C1: whenever `inFlight` is true, a newly finalized speech segment is
dropped with no state change and no work, and a text submission is
rejected with only a user-visible message — neither is queued; and both
the speech-segment path and the text path, over every collaborator
outcome (success, empty result, thrown error) and any events delivered at
their suspension points, end with `inFlight` cleared back to false. -/
theorem single_turn_in_flight :
    (∀ (sz : Nat) (o : TurnOracle) (s : Orch), s.inFlight = true →
      onSpeechEndRun sz o s = (s, [])) ∧
    (∀ (text : String) (o : TextOracle) (s : Orch),
      s.inFlight = true → s.mode = Mode.text →
      onSendTextRun text o s = ({ s with errorMsg := some waitMsg }, [])) ∧
    (∀ (sz : Nat) (o : TurnOracle) (s : Orch), s.inFlight = false →
      (onSpeechEndRun sz o s).1.inFlight = false) ∧
    (∀ (text : String) (o : TextOracle) (s : Orch), s.inFlight = false →
      (onSendTextRun text o s).1.inFlight = false) := by
  refine ⟨?_, ?_, ?_, ?_⟩
  · intro sz o s h
    simp [onSpeechEndRun, h]
  · intro text o s h hm
    simp [onSendTextRun, h, hm]
  · intro sz o s h
    simp only [onSpeechEndRun]
    split
    · simpa using h
    · split
      · rw [ensureVoiceListeningO_inFlight]
      · rcases hasr : o.asr with _ | text
        · simp [hasr, stopAllO]
        · simp only [hasr]
          split
          · simp [stopAllO]
          · rcases hchat : o.chat with _ | reply
            · simp [hchat, stopAllO]
            · simp only [hchat]
              split
              · simp [stopVoicePipelineO]
              · rw [ensureVoiceListeningO_inFlight]
  · intro text o s h
    simp only [onSendTextRun]
    split
    · simpa using h
    · split
      · simpa using h
      · split
        · simpa using h
        · split
          · rw [ensureVoiceListeningO_inFlight]
          · rfl

/-- Closed witness for C1: a concrete busy orchestrator drops a segment
and rejects a text submission; a concrete idle one ends clear. -/
theorem single_turn_in_flight_witness :
    onSpeechEndRun 5000
        ⟨some "x", some "y", ⟨true, false, false, []⟩, [], [], MicResult.granted⟩
        ⟨WState.listening, true, true, true, true, false, Mode.voice, false, false,
         false, false, false, true, true, true, true, none⟩ =
      (⟨WState.listening, true, true, true, true, false, Mode.voice, false, false,
        false, false, false, true, true, true, true, none⟩, []) ∧
    (onSendTextRun "hello"
        ⟨some "y", ⟨true, false, false, []⟩, [], MicResult.granted⟩
        ⟨WState.idle, true, false, false, false, false, Mode.text, false, false,
         false, false, false, true, true, true, true, none⟩).2 = [] ∧
    (onSpeechEndRun 5000
        ⟨some "x", some "y", ⟨true, false, false, []⟩, [], [], MicResult.granted⟩
        ⟨WState.listening, false, true, true, true, false, Mode.voice, false, false,
         false, false, false, true, true, true, true, none⟩).1.inFlight = false := by
  refine ⟨?_, ?_, ?_⟩
  · exact single_turn_in_flight.1 5000
      ⟨some "x", some "y", ⟨true, false, false, []⟩, [], [], MicResult.granted⟩
      ⟨WState.listening, true, true, true, true, false, Mode.voice, false, false,
       false, false, false, true, true, true, true, none⟩ rfl
  · rw [single_turn_in_flight.2.1 "hello"
      ⟨some "y", ⟨true, false, false, []⟩, [], MicResult.granted⟩
      ⟨WState.idle, true, false, false, false, false, Mode.text, false, false,
       false, false, false, true, true, true, true, none⟩ rfl rfl]
  · exact single_turn_in_flight.2.2.1 5000
      ⟨some "x", some "y", ⟨true, false, false, []⟩, [], [], MicResult.granted⟩
      ⟨WState.listening, false, true, true, true, false, Mode.voice, false, false,
       false, false, false, true, true, true, true, none⟩ rfl

/-! ## Claim C6: empty-transcript fallback -/

/-- C6: when the transcription collaborator returns a text whose trim is
empty for a voice segment, the orchestrator forces text mode, surfaces
the recoverable error message, tears the whole voice pipeline down (VAD,
recorder, stream, playback), clears `inFlight`, and returns to `idle`. -/
theorem empty_transcript_fallback (sz : Nat) (o : TurnOracle) (s : Orch)
    (hst : s.state = WState.listening) (hif : s.inFlight = false)
    (hsz : 1200 ≤ sz) (t : String) (hasr : o.asr = some t)
    (htrim : strTrim t = "") (hev : o.evAsr = []) :
    (onSpeechEndRun sz o s).1.mode = Mode.text ∧
    (onSpeechEndRun sz o s).1.errorMsg = some asrEmptyMsg ∧
    (onSpeechEndRun sz o s).1.vadOn = false ∧
    (onSpeechEndRun sz o s).1.recorderOn = false ∧
    (onSpeechEndRun sz o s).1.streamOn = false ∧
    (onSpeechEndRun sz o s).1.currentAudio = false ∧
    (onSpeechEndRun sz o s).1.inFlight = false ∧
    (onSpeechEndRun sz o s).1.state = WState.idle := by
  have hns : ¬ sz < 1200 := Nat.not_lt.2 hsz
  simp [onSpeechEndRun, hst, hif, hns, hasr, hev, htrim, applyEvs, stopAllO,
    reduceStateO]

/-- Closed witness for C6 at a whitespace-only transcript. -/
theorem empty_transcript_fallback_witness :
    (onSpeechEndRun 2000
        ⟨some "  ", some "y", ⟨true, false, false, []⟩, [], [], MicResult.granted⟩
        ⟨WState.listening, false, true, true, true, false, Mode.voice, false, false,
         false, false, false, true, true, true, true, none⟩).1.mode = Mode.text := by
  exact (empty_transcript_fallback 2000
    ⟨some "  ", some "y", ⟨true, false, false, []⟩, [], [], MicResult.granted⟩
    ⟨WState.listening, false, true, true, true, false, Mode.voice, false, false,
     false, false, false, true, true, true, true, none⟩ rfl rfl (by decide)
    "  " rfl (by decide) rfl).1

/-! ## Claim C7: deferred mode switch never truncates a turn -/

/-- C7: switching mode from voice to text while a turn is mid-flight
(listening, in flight, or recording) only sets the deferred-stop flag —
no pipeline resource is touched and nothing is interrupted; and a voice
turn during whose chat await such a switch arrives performs exactly the
same turn actions as the undisturbed turn, followed by exactly one
pipeline teardown at the turn's natural completion (the undisturbed turn
performs none), leaving the flag cleared and the pipeline down. -/
theorem deferred_mode_switch (g : Bool) (mic2 : MicResult)
    (u reply : String) (w tts : Bool) (mic : MicResult) (sz : Nat)
    (bd hs : Bool) (em : Option String)
    (htrim : strTrim u ≠ "") (hsz : 1200 ≤ sz) :
    (∀ s : Orch,
      (s.state = WState.listening ∨ s.inFlight = true ∨ s.recording = true) →
      onSelectModeO Mode.text g mic2 s =
        ({ s with mode := Mode.text, errorMsg := none,
                  pendingStopVoiceAfterTurn := true }, [])) ∧
    ((onSpeechEndRun sz
        ⟨some u, some reply, ⟨tts, false, w, []⟩, [],
         [Ev.selectMode Mode.text g mic2], mic⟩
        ⟨WState.listening, false, true, true, true, false, Mode.voice, false, false,
         false, false, false, bd, true, true, hs, em⟩).2 =
      (onSpeechEndRun sz
        ⟨some u, some reply, ⟨tts, false, w, []⟩, [], [], mic⟩
        ⟨WState.listening, false, true, true, true, false, Mode.voice, false, false,
         false, false, false, bd, true, true, hs, em⟩).2 ++
        [Act.pipelineTeardown]) ∧
    Act.pipelineTeardown ∉
      (onSpeechEndRun sz
        ⟨some u, some reply, ⟨tts, false, w, []⟩, [], [], mic⟩
        ⟨WState.listening, false, true, true, true, false, Mode.voice, false, false,
         false, false, false, bd, true, true, hs, em⟩).2 ∧
    (onSpeechEndRun sz
        ⟨some u, some reply, ⟨tts, false, w, []⟩, [],
         [Ev.selectMode Mode.text g mic2], mic⟩
        ⟨WState.listening, false, true, true, true, false, Mode.voice, false, false,
         false, false, false, bd, true, true, hs, em⟩).1.vadOn = false ∧
    (onSpeechEndRun sz
        ⟨some u, some reply, ⟨tts, false, w, []⟩, [],
         [Ev.selectMode Mode.text g mic2], mic⟩
        ⟨WState.listening, false, true, true, true, false, Mode.voice, false, false,
         false, false, false, bd, true, true, hs, em⟩).1.streamOn = false ∧
    (onSpeechEndRun sz
        ⟨some u, some reply, ⟨tts, false, w, []⟩, [],
         [Ev.selectMode Mode.text g mic2], mic⟩
        ⟨WState.listening, false, true, true, true, false, Mode.voice, false, false,
         false, false, false, bd, true, true, hs, em⟩).1.pendingStopVoiceAfterTurn
      = false ∧
    (onSpeechEndRun sz
        ⟨some u, some reply, ⟨tts, false, w, []⟩, [],
         [Ev.selectMode Mode.text g mic2], mic⟩
        ⟨WState.listening, false, true, true, true, false, Mode.voice, false, false,
         false, false, false, bd, true, true, hs, em⟩).1.state = WState.idle := by
  have hns : ¬ sz < 1200 := Nat.not_lt.2 hsz
  refine ⟨?_, ?_, ?_, ?_, ?_, ?_, ?_⟩
  · intro s hmid
    have hcond : ({ s with mode := Mode.text, errorMsg := none } : Orch).state =
        WState.listening ∨
        ({ s with mode := Mode.text, errorMsg := none } : Orch).inFlight = true ∨
        ({ s with mode := Mode.text, errorMsg := none } : Orch).recording = true := by
      simpa using hmid
    simp [onSelectModeO, hcond]
  all_goals
    cases tts <;> cases w <;>
      simp [onSpeechEndRun, applyEvs, applyEv, onSelectModeO, speakRun,
        reduceStateO, ensureVoiceListeningO, stopVoicePipelineO, hns, htrim]

/-- Closed witness for C7: a concrete mid-flight switch defers, and the
concrete deferred turn tears down exactly once at completion. -/
theorem deferred_mode_switch_witness :
    onSelectModeO Mode.text true MicResult.granted
        ⟨WState.listening, false, true, true, true, true, Mode.voice, false, false,
         false, false, false, true, true, true, true, none⟩ =
      (⟨WState.listening, false, true, true, true, true, Mode.text, false, false,
        false, false, true, true, true, true, true, none⟩, []) ∧
    (onSpeechEndRun 2000
        ⟨some "hello", some "hi", ⟨true, false, false, []⟩, [],
         [Ev.selectMode Mode.text true MicResult.granted], MicResult.granted⟩
        ⟨WState.listening, false, true, true, true, false, Mode.voice, false, false,
         false, false, false, true, true, true, true, none⟩).1.state = WState.idle := by
  have h := deferred_mode_switch true MicResult.granted "hello" "hi" false true
    MicResult.granted 2000 true true none (by decide) (by decide)
  constructor
  · rw [h.1 ⟨WState.listening, false, true, true, true, true, Mode.voice, false,
      false, false, false, false, true, true, true, true, none⟩ (Or.inl rfl)]
  · exact h.2.2.2.2.2.2

/-- Closed witness for C9 at a concrete silence-timeout tick. -/
theorem vad_segment_end_recovery_witness :
    (vadTick VAD_CONFIG ⟨1100, 0, 0⟩
      { running := true, inSpeech := true, speechStartAt := 200, lastVoiceAt := 400,
        recS := { recording := true, chunks := 900 } }).1.recS.recording = false := by
  exact (vad_segment_end_recovery ⟨1100, 0, 0⟩
    { running := true, inSpeech := true, speechStartAt := 200, lastVoiceAt := 400,
      recS := { recording := true, chunks := 900 } } rfl rfl
    (Or.inr ⟨by decide, by decide⟩)).1

end WithU
